import Mathlib

/-!
# Resolved-future factories of `firestore/src/common/futures.h`

The header defines three factories on top of the shared
`ReferenceCountedFutureImpl`: `SuccessfulFuture`, `FailedFuture(error, message)`
and the cached no-argument `FailedFuture()`.  The registry class itself, the
`Future` value type and the `Error` enumeration live in headers that are only
included by this file; they are modelled below from the specification, and
the three factories are translated from the header line by line as
state-passing functions over the process state.
-/

namespace firebase.firestore

/-! ## Collaborators that the header only includes -/

/-- Modelled from the spec: the `Error` enumeration of
`firebase/firestore/firestore_errors.h` (absent). The header names only
`kErrorOk` and `kErrorFailedPrecondition`; the code space is otherwise
application-defined ("other domain codes") and treated opaquely. -/
inductive Error where
  | kErrorOk
  | kErrorFailedPrecondition
  | domain (code : Nat)
  deriving DecidableEq

/-- Modelled from the spec: the result types `T` a slot can be "sized/typed"
for. `Ty` is the collection of C++ result types, `Val T` the values of `T`
and `init T` the contents of freshly allocated, not yet written result
storage (the registry initialises storage before any writer runs). -/
class ResultTypes (Ty : Type) where
  Val : Ty → Type
  init : (T : Ty) → Val T

open ResultTypes

/-- Modelled from the spec: the status of a Result Slot,
"enum {Pending, Completed}". -/
inductive FutureStatus where
  | Pending
  | Completed
  deriving DecidableEq

/-- Modelled from the spec: the outcome of a completed slot, the tagged union
"{Success(T-shaped storage), Failure(error code, error message)}". -/
inductive Outcome {Ty : Type} [ResultTypes Ty] (T : Ty) where
  | Success (value : Val T)
  | Failure (code : Error) (message : String)

/-- Modelled from the spec: misuse errors ("double-completion of a slot,
querying a handle against the wrong registry, calling result() on an
incomplete or failed future"), reported as fatal rather than as data. -/
inductive Misuse where
  | doubleCompletion
  | unknownHandle
  | resultOfPending
  | resultOfFailure
  deriving DecidableEq

/-- Modelled from the spec: a Result Handle (`FutureHandle`), an opaque
identifier naming one slot of its registry by the slot's index. -/
structure FutureHandle where
  id : Nat
  deriving DecidableEq

/-- Modelled from the spec: `SafeFutureHandle<T>`, a Result Handle tagged
with the result type of its slot; `get` is the untyped handle. -/
structure SafeFutureHandle {Ty : Type} (T : Ty) where
  get : FutureHandle
  deriving DecidableEq

/-- Modelled from the spec: a Result Slot. `storage` is the T-shaped result
storage and `completion` the error code and message recorded by the one
completion of the slot; it is absent while the slot is Pending. The spec's
`status` and `outcome` are read off these fields below. -/
structure ResultSlot (Ty : Type) [ResultTypes Ty] where
  T : Ty
  storage : Val T
  completion : Option (Error × String)

section
variable {Ty : Type} [ResultTypes Ty]

/-- Modelled from the spec: the slot's `status`. -/
def ResultSlot.status (s : ResultSlot Ty) : FutureStatus :=
  match s.completion with
  | none => FutureStatus.Pending
  | some _ => FutureStatus.Completed

/-- Modelled from the spec: the slot's `outcome`, "present only once
Completed". The code `kErrorOk` is "the success sentinel": a completion with
it is a success whose value is the slot's storage; any other code is a
`Failure` carrying code and message. -/
def ResultSlot.outcome (s : ResultSlot Ty) : Option (Outcome s.T) :=
  match s.completion with
  | none => none
  | some (code, message) =>
    if code = Error.kErrorOk then some (Outcome.Success s.storage)
    else some (Outcome.Failure code message)

/-- Modelled from the spec: the Completion Registry
(`ReferenceCountedFutureImpl` of `app/src/reference_counted_future_impl.h`,
absent): an arena of Result Slots in which slots are only ever added and
never reclaimed. The registry's reference count is not touched by any
operation that `futures.h` calls and is not part of the model. -/
structure ReferenceCountedFutureImpl (Ty : Type) [ResultTypes Ty] where
  slots : List (ResultSlot Ty)

/-- Modelled from the spec: `allocate<T>()` (`SafeAlloc<T>`): "reserves a new
Pending slot sized/typed for result type T", never fails, and never hands
out the same handle twice: the handle is the index of the new slot. -/
def ReferenceCountedFutureImpl.SafeAlloc (api : ReferenceCountedFutureImpl Ty) (T : Ty) :
    SafeFutureHandle T × ReferenceCountedFutureImpl Ty :=
  (⟨⟨api.slots.length⟩⟩, ⟨api.slots ++ [⟨T, init T, none⟩]⟩)

/-- Modelled from the spec: `Complete(handle, error, error_msg, populate_data_fn)`,
the completion with an in-place writer (`complete_success` when called with
`kErrorOk`): the writer is "invoked with a mutable reference to the slot's
result storage", the code and message are recorded and the slot goes from
Pending to Completed. Completing a slot that is already Completed is
detected and rejected; a handle that names no slot of this registry, or a
slot of another result type, is misuse as well. -/
def ReferenceCountedFutureImpl.CompleteWithCallback (api : ReferenceCountedFutureImpl Ty)
    {T : Ty} [DecidableEq Ty] (handle : SafeFutureHandle T) (error : Error) (error_msg : String)
    (populate_data_fn : Val T → Val T) : Except Misuse (ReferenceCountedFutureImpl Ty) :=
  match api.slots[handle.get.id]? with
  | none => Except.error Misuse.unknownHandle
  | some slot =>
    if h : slot.T = T then
      match slot.completion with
      | some _ => Except.error Misuse.doubleCompletion
      | none =>
        Except.ok ⟨api.slots.set handle.get.id
          ⟨T, populate_data_fn (h ▸ slot.storage), some (error, error_msg)⟩⟩
    else Except.error Misuse.unknownHandle

/-- Modelled from the spec: `Complete(handle, error, error_msg)`
(`complete_failure`): the completion without a writer, which leaves the
result storage as allocated. "error_code of no error is permitted here to
represent a degenerate success-with-no-payload path". -/
def ReferenceCountedFutureImpl.Complete (api : ReferenceCountedFutureImpl Ty)
    {T : Ty} [DecidableEq Ty] (handle : SafeFutureHandle T) (error : Error) (error_msg : String) :
    Except Misuse (ReferenceCountedFutureImpl Ty) :=
  api.CompleteWithCallback handle error error_msg (fun storage => storage)

/-- Modelled from the spec: the registry reference held by a Future Value.
Registries are "created explicitly (one per owning API surface) or once as
the Shared Default Registry"; `futures.h` only ever uses the shared one. -/
inductive ApiRef where
  | shared
  | owned (id : Nat)
  deriving DecidableEq

/-- Modelled from the spec: a Future Value `Future<T>`, the pair
"(registry_reference, result_handle)"; copying it copies the pair. -/
structure Future (T : Ty) where
  api : ApiRef
  handle : FutureHandle
  deriving DecidableEq

/-- The process state that `futures.h` reads and writes: the Shared Default
Registry behind `GetSharedReferenceCountedFutureImpl` (absent until its first
use) and, for each instantiation `FailedFuture<T>()`, the function-local
static `future` of lines 62-66 (absent until that instantiation has run). -/
structure Process (Ty : Type) [ResultTypes Ty] where
  shared : Option (ReferenceCountedFutureImpl Ty)
  future : (T : Ty) → Option (Future T)

/-- The state of a process in which none of the factories has run yet. -/
def Process.init : Process Ty :=
  ⟨none, fun _ => none⟩

/-- The slots of the Shared Default Registry; none before its creation. -/
def Process.slots (p : Process Ty) : List (ResultSlot Ty) :=
  match p.shared with
  | none => []
  | some api => api.slots

/-- Modelled from the spec: `internal::GetSharedReferenceCountedFutureImpl`
(declared on line 20, defined elsewhere): the process-wide registry,
"created exactly once, first-use-lazy". -/
def GetSharedReferenceCountedFutureImpl (p : Process Ty) :
    ReferenceCountedFutureImpl Ty × Process Ty :=
  match p.shared with
  | some api => (api, p)
  | none => (⟨[]⟩, ⟨some ⟨[]⟩, p.future⟩)

/-- Modelled from the spec: `query(handle)` through a Future Value: the slot
the future references, if its handle names one. Registries owned by API
objects are outside this file. -/
def Future.slot {T : Ty} (f : Future T) (p : Process Ty) : Option (ResultSlot Ty) :=
  match f.api with
  | ApiRef.shared => p.slots[f.handle.id]?
  | ApiRef.owned _ => none

/-- Modelled from the spec: `Future::status()`. -/
def Future.status {T : Ty} (f : Future T) (p : Process Ty) : Option FutureStatus :=
  (f.slot p).map ResultSlot.status

/-- Modelled from the spec: `Future::is_completed()`. -/
def Future.is_completed {T : Ty} (f : Future T) (p : Process Ty) : Bool :=
  f.status p == some FutureStatus.Completed

/-- Modelled from the spec: `Future::error()`, the error code recorded by
the completion of the slot. -/
def Future.error {T : Ty} (f : Future T) (p : Process Ty) : Option Error :=
  (f.slot p).bind fun s => s.completion.map Prod.fst

/-- Modelled from the spec: `Future::error_message()`, the message recorded
by the completion of the slot. -/
def Future.error_message {T : Ty} (f : Future T) (p : Process Ty) : Option String :=
  (f.slot p).bind fun s => s.completion.map Prod.snd

/-- Modelled from the spec: `Future::result()`: "fails if not yet completed
or if completed with failure — returns the typed success value". -/
def Future.result [DecidableEq Ty] {T : Ty} (f : Future T) (p : Process Ty) :
    Except Misuse (Val T) :=
  match f.slot p with
  | none => Except.error Misuse.unknownHandle
  | some s =>
    if h : s.T = T then
      match s.completion with
      | none => Except.error Misuse.resultOfPending
      | some (code, _) =>
        if code = Error.kErrorOk then Except.ok (h ▸ s.storage)
        else Except.error Misuse.resultOfFailure
    else Except.error Misuse.unknownHandle

/-- Modelled from the spec: the outcome a holder of the future observes. -/
def Future.outcome [DecidableEq Ty] {T : Ty} (f : Future T) (p : Process Ty) :
    Option (Outcome T) :=
  match f.slot p with
  | none => none
  | some s => if h : s.T = T then h ▸ s.outcome else none

/-- Modelled from the spec: what a caller inspecting the future sees. The
code space is opaque "except for recognizing ok as the success sentinel":
the future is seen as failed when it is completed with a code other than
`kErrorOk`. -/
def Future.failed {T : Ty} (f : Future T) (p : Process Ty) : Bool :=
  match f.error p with
  | none => false
  | some code => code != Error.kErrorOk

/-! ## The factories of `futures.h` -/

variable [DecidableEq Ty]

/-- Lines 24-35: `SuccessfulFuture(T&& result)`. -/
def SuccessfulFuture (T : Ty) (result : Val T) (p : Process Ty) :
    Except Misuse (Future T × Process Ty) :=
  let (api, p) := GetSharedReferenceCountedFutureImpl p
  let (handle, api) := api.SafeAlloc T
  match api.CompleteWithCallback handle Error.kErrorOk "" (fun _ => result) with
  | Except.error e => Except.error e
  | Except.ok api => Except.ok (⟨ApiRef.shared, handle.get⟩, ⟨some api, p.future⟩)

/-- Lines 40-47: `FailedFuture(Error error, const char* message)`. -/
def FailedFuture (T : Ty) (error : Error) (message : String) (p : Process Ty) :
    Except Misuse (Future T × Process Ty) :=
  let (api, p) := GetSharedReferenceCountedFutureImpl p
  let (handle, api) := api.SafeAlloc T
  match api.Complete handle error message with
  | Except.error e => Except.error e
  | Except.ok api => Except.ok (⟨ApiRef.shared, handle.get⟩, ⟨some api, p.future⟩)

/-- The message of lines 64-66; the three adjacent string literals of the
source are one literal to the C++ compiler. -/
def kInvalidStateMessage : String :=
  "This instance is in an invalid state. This could either because the underlying Firestore instance has been destructed or because you're running on an unsupported platform."

/-- Lines 60-68: the no-argument `FailedFuture()`. The static local `future`
is initialised by the first call of the instantiation for `T` and returned
by copy on every call. -/
def FailedFuture0 (T : Ty) (p : Process Ty) : Except Misuse (Future T × Process Ty) :=
  match p.future T with
  | some future => Except.ok (future, p)
  | none =>
    match FailedFuture T Error.kErrorFailedPrecondition kInvalidStateMessage p with
    | Except.error e => Except.error e
    | Except.ok (future, p) =>
      Except.ok (future,
        ⟨p.shared, fun U => if h : U = T then some (h ▸ future) else p.future U⟩)

/-- Lines 24-68 seen from a caller: one call of one of the three factories. -/
inductive Call (Ty : Type) [ResultTypes Ty] where
  | successful (T : Ty) (result : Val T)
  | failed (T : Ty) (error : Error) (message : String)
  | invalid (T : Ty)

/-- The process state after one factory call (the returned future dropped). -/
def Call.exec (c : Call Ty) (p : Process Ty) : Except Misuse (Process Ty) :=
  match c with
  | Call.successful T result => (SuccessfulFuture T result p).map Prod.snd
  | Call.failed T error message => (FailedFuture T error message p).map Prod.snd
  | Call.invalid T => (FailedFuture0 T p).map Prod.snd

/-- The process state after a sequence of factory calls, made one after the
other. -/
def runCalls : List (Call Ty) → Process Ty → Except Misuse (Process Ty)
  | [], p => Except.ok p
  | c :: cs, p =>
    match c.exec p with
    | Except.error e => Except.error e
    | Except.ok p => runCalls cs p

end

/-! ## A concrete family of result types, for evaluation -/

/-- Three C++ result types used to evaluate the factories on concrete
inputs: `void`, `int` and `std::string`. -/
inductive CppType where
  | void
  | int
  | string
  deriving DecidableEq

instance : ResultTypes CppType where
  Val := fun T => match T with
    | CppType.void => Unit
    | CppType.int => Int
    | CppType.string => String
  init := fun T => match T with
    | CppType.void => ()
    | CppType.int => (0 : Int)
    | CppType.string => ""

/-! ## Predicates used in the statements -/

section
variable {Ty : Type} [ResultTypes Ty] [DecidableEq Ty]

/-- What a holder of the future `f` can observe is the same in the process
states `p` and `q`: status, error code, error message, outcome and the
answer of `result()`. -/
def Future.SameObservations {T : Ty} (f : Future T) (p q : Process Ty) : Prop :=
  f.status q = f.status p ∧ f.is_completed q = f.is_completed p ∧
  f.error q = f.error p ∧ f.error_message q = f.error_message p ∧
  f.outcome q = f.outcome p ∧ f.result q = f.result p

/-- Every static local `future` that has been initialised references the
shared registry and names a slot of its own result type that is completed
with the invalid-state failure of lines 63-66. -/
def Process.SentinelsValid (p : Process Ty) : Prop :=
  ∀ (T : Ty) (f : Future T), p.future T = some f →
    f.api = ApiRef.shared ∧
    p.slots[f.handle.id]? =
      some ⟨T, ResultTypes.init T,
        some (Error.kErrorFailedPrecondition, kInvalidStateMessage)⟩

/-- From `p` to `q` the shared registry only gained slots, no initialised
static local changed, and valid sentinels stayed valid. -/
def Process.Grows (p q : Process Ty) : Prop :=
  (∃ t, q.slots = p.slots ++ t) ∧
  (∀ (T : Ty) (f : Future T), p.future T = some f → q.future T = some f) ∧
  (p.SentinelsValid → q.SentinelsValid)

end

/-! ## Closed forms of the factories -/

section
variable {Ty : Type} [ResultTypes Ty]

theorem slots_GetShared (p : Process Ty) :
    (GetSharedReferenceCountedFutureImpl p).1.slots = p.slots := by
  unfold GetSharedReferenceCountedFutureImpl Process.slots
  cases p.shared <;> rfl

theorem future_GetShared (p : Process Ty) :
    (GetSharedReferenceCountedFutureImpl p).2.future = p.future := by
  unfold GetSharedReferenceCountedFutureImpl
  cases p.shared <;> rfl

/-- The slot a future names right after the factory appended it. -/
theorem slot_appended {T : Ty} (l : List (ResultSlot Ty)) (s : ResultSlot Ty)
    (fut : (U : Ty) → Option (Future U)) :
    (Future.mk ApiRef.shared ⟨l.length⟩ : Future T).slot ⟨some ⟨l ++ [s]⟩, fut⟩ = some s := by
  simp [Future.slot, Process.slots]

variable [DecidableEq Ty]

theorem CompleteWithCallback_SafeAlloc (api : ReferenceCountedFutureImpl Ty) (T : Ty)
    (e : Error) (m : String) (fn : Val T → Val T) :
    (api.SafeAlloc T).2.CompleteWithCallback (api.SafeAlloc T).1 e m fn
      = Except.ok ⟨api.slots ++ [⟨T, fn (init T), some (e, m)⟩]⟩ := by
  simp [ReferenceCountedFutureImpl.SafeAlloc, ReferenceCountedFutureImpl.CompleteWithCallback]

theorem SuccessfulFuture_eq (T : Ty) (v : Val T) (p : Process Ty) :
    SuccessfulFuture T v p = Except.ok
      (⟨ApiRef.shared, ⟨p.slots.length⟩⟩,
       ⟨some ⟨p.slots ++ [⟨T, v, some (Error.kErrorOk, "")⟩]⟩, p.future⟩) := by
  unfold SuccessfulFuture
  simp only []
  rw [CompleteWithCallback_SafeAlloc]
  simp [slots_GetShared, future_GetShared, ReferenceCountedFutureImpl.SafeAlloc]

theorem FailedFuture_eq (T : Ty) (e : Error) (m : String) (p : Process Ty) :
    FailedFuture T e m p = Except.ok
      (⟨ApiRef.shared, ⟨p.slots.length⟩⟩,
       ⟨some ⟨p.slots ++ [⟨T, init T, some (e, m)⟩]⟩, p.future⟩) := by
  unfold FailedFuture ReferenceCountedFutureImpl.Complete
  simp only []
  rw [CompleteWithCallback_SafeAlloc]
  simp [slots_GetShared, future_GetShared, ReferenceCountedFutureImpl.SafeAlloc]

theorem FailedFuture0_cached {T : Ty} {p : Process Ty} {f : Future T}
    (h : p.future T = some f) : FailedFuture0 T p = Except.ok (f, p) := by
  unfold FailedFuture0
  rw [h]

theorem FailedFuture0_fresh {T : Ty} {p : Process Ty} (h : p.future T = none) :
    FailedFuture0 T p = Except.ok
      (⟨ApiRef.shared, ⟨p.slots.length⟩⟩,
       ⟨some ⟨p.slots ++
          [⟨T, init T, some (Error.kErrorFailedPrecondition, kInvalidStateMessage)⟩]⟩,
        fun U => if h : U = T then some (h ▸ ⟨ApiRef.shared, ⟨p.slots.length⟩⟩)
          else p.future U⟩) := by
  unfold FailedFuture0
  rw [h, FailedFuture_eq]

end

/-! ## Already-resolved futures: `SuccessfulFuture` and `FailedFuture(error, message)` -/

section
variable {Ty : Type} [ResultTypes Ty] [DecidableEq Ty]

/-- C1: for every result type `T`, value `v` and process state, the future
returned by `SuccessfulFuture(v)` is completed, carries no failure outcome
(error code `kErrorOk`, empty error message, not seen as failed, outcome
`Success v`) and its `result()` is `v`. -/
theorem SuccessfulFuture_completed_with_result (T : Ty) (v : Val T) (p : Process Ty) :
    ∃ f p', SuccessfulFuture T v p = Except.ok (f, p') ∧
      f.is_completed p' = true ∧
      f.error p' = some Error.kErrorOk ∧
      f.error_message p' = some "" ∧
      f.failed p' = false ∧
      f.outcome p' = some (Outcome.Success v) ∧
      f.result p' = Except.ok v := by
  refine ⟨_, _, SuccessfulFuture_eq T v p, ?_, ?_, ?_, ?_, ?_, ?_⟩ <;>
    simp [Future.is_completed, Future.status, Future.error, Future.error_message,
      Future.failed, Future.outcome, Future.result, slot_appended, ResultSlot.status,
      ResultSlot.outcome]

/-- C2: for every result type `T`, error code `e`, message `m` and process
state, the future returned by `FailedFuture<T>(e, m)` is completed, its
`error()` is exactly `e` and its error message is exactly `m`. -/
theorem FailedFuture_completed_with_error (T : Ty) (e : Error) (m : String) (p : Process Ty) :
    ∃ f p', FailedFuture T e m p = Except.ok (f, p') ∧
      f.is_completed p' = true ∧
      f.error p' = some e ∧
      f.error_message p' = some m := by
  refine ⟨_, _, FailedFuture_eq T e m p, ?_, ?_, ?_⟩ <;>
    simp [Future.is_completed, Future.status, Future.error, Future.error_message,
      slot_appended, ResultSlot.status]

/-- C3, as amended: `FailedFuture<T>(e, m)` returns a future that a caller
sees as failed exactly when `e` is not `kErrorOk`. For `e` other than
`kErrorOk` the slot is completed with the outcome `Failure(e, m)`; for
`kErrorOk` it is completed with a success outcome that carries no payload
(the result storage as allocated). -/
theorem FailedFuture_failed_iff (T : Ty) (e : Error) (m : String) (p : Process Ty) :
    ∃ f p', FailedFuture T e m p = Except.ok (f, p') ∧
      f.is_completed p' = true ∧
      (f.failed p' = true ↔ e ≠ Error.kErrorOk) ∧
      (e ≠ Error.kErrorOk → f.outcome p' = some (Outcome.Failure e m)) ∧
      (e = Error.kErrorOk → f.outcome p' = some (Outcome.Success (init T))) := by
  refine ⟨_, _, FailedFuture_eq T e m p, ?_, ?_, ?_, ?_⟩
  · simp [Future.is_completed, Future.status, slot_appended, ResultSlot.status]
  · simp [Future.failed, Future.error, slot_appended]
  · intro he
    simp [Future.outcome, slot_appended, ResultSlot.outcome, he]
  · intro he
    simp [Future.outcome, slot_appended, ResultSlot.outcome, he]

/-- C7: for a failure code `e` (any code but `kErrorOk`) the future returned
by `FailedFuture<T>(e, m)` rejects `result()` as invalid: the access is the
misuse "result of a failed future" and yields no value of type `T`. -/
theorem FailedFuture_result_rejected (T : Ty) (e : Error) (m : String) (p : Process Ty)
    (he : e ≠ Error.kErrorOk) :
    ∃ f p', FailedFuture T e m p = Except.ok (f, p') ∧
      f.result p' = Except.error Misuse.resultOfFailure ∧
      ∀ v, f.result p' ≠ Except.ok v := by
  refine ⟨_, _, FailedFuture_eq T e m p, ?_, ?_⟩
  · simp [Future.result, slot_appended, he]
  · intro v
    simp [Future.result, slot_appended, he]

end

/-- C3 fails as stated: `FailedFuture<void>(kErrorOk, "")` in a fresh process
returns a completed future that is not seen as failed: its error code is
`kErrorOk`, its outcome is a success and `result()` is accepted. -/
theorem FailedFuture_kErrorOk_not_failed :
    ∃ f p', FailedFuture CppType.void Error.kErrorOk "" Process.init = Except.ok (f, p') ∧
      f.is_completed p' = true ∧
      f.error p' = some Error.kErrorOk ∧
      f.failed p' = false ∧
      f.outcome p' = some (Outcome.Success ()) ∧
      f.result p' = Except.ok () :=
  ⟨_, _, rfl, rfl, rfl, rfl, rfl, rfl⟩

/-- C3, as amended, at `FailedFuture<int>(domain 3, "boom")` and at
`FailedFuture<int>(kErrorOk, "")` in a fresh process. -/
theorem FailedFuture_failed_iff_witness :
    Error.domain 3 ≠ Error.kErrorOk ∧
    (∃ f p', FailedFuture CppType.int (Error.domain 3) "boom" Process.init = Except.ok (f, p') ∧
      f.is_completed p' = true ∧
      (f.failed p' = true ↔ Error.domain 3 ≠ Error.kErrorOk) ∧
      (Error.domain 3 ≠ Error.kErrorOk →
        f.outcome p' = some (Outcome.Failure (Error.domain 3) "boom")) ∧
      (Error.domain 3 = Error.kErrorOk →
        f.outcome p' = some (Outcome.Success (init CppType.int)))) :=
  ⟨by decide, FailedFuture_failed_iff CppType.int (Error.domain 3) "boom" Process.init⟩

/-- C7 at the spec's example `FailedFuture<int>(ErrorX, "boom")`, with the
domain code 3 for `ErrorX`, in a fresh process. -/
theorem FailedFuture_result_rejected_witness :
    Error.domain 3 ≠ Error.kErrorOk ∧
    ∃ f p', FailedFuture CppType.int (Error.domain 3) "boom" Process.init = Except.ok (f, p') ∧
      f.result p' = Except.error Misuse.resultOfFailure ∧
      ∀ v, f.result p' ≠ Except.ok v :=
  ⟨by decide,
    FailedFuture_result_rejected CppType.int (Error.domain 3) "boom" Process.init (by decide)⟩

/-! ## Sequences of factory calls -/

section
variable {Ty : Type} [ResultTypes Ty]

theorem getElem?_append_of_eq_some {α : Type} {l : List α} {i : Nat} {a : α} (t : List α)
    (h : l[i]? = some a) : (l ++ t)[i]? = some a := by
  have hi : i < l.length := by
    by_contra hcon
    rw [List.getElem?_eq_none (Nat.le_of_not_lt hcon)] at h
    exact Option.noConfusion h
  rw [List.getElem?_append_left hi, h]

theorem Process.Grows.refl (p : Process Ty) : p.Grows p :=
  ⟨⟨[], by simp⟩, fun _ _ h => h, fun h => h⟩

theorem Process.Grows.trans {p q r : Process Ty} (h₁ : p.Grows q) (h₂ : q.Grows r) : p.Grows r := by
  obtain ⟨⟨t₁, e₁⟩, f₁, v₁⟩ := h₁
  obtain ⟨⟨t₂, e₂⟩, f₂, v₂⟩ := h₂
  exact ⟨⟨t₁ ++ t₂, by rw [e₂, e₁, List.append_assoc]⟩,
    fun T f h => f₂ T f (f₁ T f h), fun h => v₂ (v₁ h)⟩

theorem Process.Grows.getElem? {p q : Process Ty} (h : p.Grows q) {i : Nat}
    (hi : i < p.slots.length) : q.slots[i]? = p.slots[i]? := by
  obtain ⟨⟨t, e⟩, -, -⟩ := h
  rw [e, List.getElem?_append_left hi]

theorem SentinelsValid_init : (Process.init : Process Ty).SentinelsValid := by
  intro T f h
  simp [Process.init] at h

/-- Appending one slot and leaving the static locals alone. -/
theorem Process.Grows.append (p : Process Ty) (s : ResultSlot Ty) :
    p.Grows ⟨some ⟨p.slots ++ [s]⟩, p.future⟩ := by
  refine ⟨⟨[s], rfl⟩, fun _ _ h => h, ?_⟩
  intro hv T f hf
  obtain ⟨ha, hs⟩ := hv T f hf
  exact ⟨ha, getElem?_append_of_eq_some [s] hs⟩

theorem Process.Grows.slot_eq {p q : Process Ty} (h : p.Grows q) {T : Ty} (f : Future T)
    (hi : f.handle.id < p.slots.length) : f.slot q = f.slot p := by
  unfold Future.slot
  cases f.api with
  | shared => exact h.getElem? hi
  | owned _ => rfl

variable [DecidableEq Ty]

theorem SuccessfulFuture_grows (T : Ty) (v : Val T) (p : Process Ty) :
    ∃ f p', SuccessfulFuture T v p = Except.ok (f, p') ∧ p.Grows p' :=
  ⟨_, _, SuccessfulFuture_eq T v p, Process.Grows.append p _⟩

theorem FailedFuture_grows (T : Ty) (e : Error) (m : String) (p : Process Ty) :
    ∃ f p', FailedFuture T e m p = Except.ok (f, p') ∧ p.Grows p' :=
  ⟨_, _, FailedFuture_eq T e m p, Process.Grows.append p _⟩

/-- The no-argument factory always returns, leaves its static local
initialised with the returned future, and only grows the process. -/
theorem FailedFuture0_grows (T : Ty) (p : Process Ty) :
    ∃ f p', FailedFuture0 T p = Except.ok (f, p') ∧ p'.future T = some f ∧ p.Grows p' := by
  cases h : p.future T with
  | some f => exact ⟨f, p, FailedFuture0_cached h, h, Process.Grows.refl p⟩
  | none =>
    refine ⟨_, _, FailedFuture0_fresh h, by simp, ⟨[_], rfl⟩, ?_, ?_⟩
    · intro U g hg
      have hne : U ≠ T := by
        rintro rfl
        rw [h] at hg
        exact Option.noConfusion hg
      simp [hne, hg]
    · intro hv U g hg
      by_cases hU : U = T
      · subst hU
        simp at hg
        subst hg
        exact ⟨rfl, by simp [Process.slots]⟩
      · simp [hU] at hg
        obtain ⟨ha, hs⟩ := hv U g hg
        exact ⟨ha, getElem?_append_of_eq_some _ hs⟩

theorem exec_grows (c : Call Ty) (p : Process Ty) :
    ∃ p', c.exec p = Except.ok p' ∧ p.Grows p' := by
  cases c with
  | successful T v =>
    obtain ⟨f, p', h, hg⟩ := SuccessfulFuture_grows T v p
    exact ⟨p', by simp [Call.exec, h, Except.map], hg⟩
  | failed T e m =>
    obtain ⟨f, p', h, hg⟩ := FailedFuture_grows T e m p
    exact ⟨p', by simp [Call.exec, h, Except.map], hg⟩
  | invalid T =>
    obtain ⟨f, p', h, -, hg⟩ := FailedFuture0_grows T p
    exact ⟨p', by simp [Call.exec, h, Except.map], hg⟩

/-- A sequence of factory calls never ends in a misuse error, and only grows
the process. -/
theorem runCalls_grows (cs : List (Call Ty)) (p : Process Ty) :
    ∃ p', runCalls cs p = Except.ok p' ∧ p.Grows p' := by
  induction cs generalizing p with
  | nil => exact ⟨p, rfl, Process.Grows.refl p⟩
  | cons c cs ih =>
    obtain ⟨p₁, h₁, g₁⟩ := exec_grows c p
    obtain ⟨p₂, h₂, g₂⟩ := ih p₁
    exact ⟨p₂, by simp [runCalls, h₁, h₂], Process.Grows.trans g₁ g₂⟩

/-- Observations of a future only depend on the slot it names. -/
theorem SameObservations_of_slot_eq {T : Ty} (f : Future T) {p q : Process Ty}
    (h : f.slot q = f.slot p) : f.SameObservations p q := by
  simp [Future.SameObservations, Future.status, Future.is_completed, Future.error,
    Future.error_message, Future.outcome, Future.result, h]

end

/-! ## The cached invalid-state future: the no-argument `FailedFuture()` -/

section
variable {Ty : Type} [ResultTypes Ty] [DecidableEq Ty]

theorem kInvalidStateMessage_eq : kInvalidStateMessage =
    "This instance is in an invalid state. This could either because the underlying Firestore instance has been destructed or because you're running on an unsupported platform." :=
  rfl

/-- C4: after any sequence of factory calls in a process (none, so that the
call below is the first one, or some, among them possibly earlier calls of
`FailedFuture<T>()`), the future returned by the no-argument
`FailedFuture<T>()` is completed with error code `kErrorFailedPrecondition`
and with the fixed message of lines 64-66. -/
theorem FailedFuture0_invalid_state (cs : List (Call Ty)) (T : Ty) :
    ∃ p f p', runCalls cs Process.init = Except.ok p ∧
      FailedFuture0 T p = Except.ok (f, p') ∧
      f.is_completed p' = true ∧
      f.error p' = some Error.kErrorFailedPrecondition ∧
      f.error_message p' = some "This instance is in an invalid state. This could either because the underlying Firestore instance has been destructed or because you're running on an unsupported platform." := by
  obtain ⟨p, hp, gp⟩ := runCalls_grows cs (Process.init : Process Ty)
  obtain ⟨f, p', hf, hc, gf⟩ := FailedFuture0_grows T p
  obtain ⟨ha, hs⟩ := gf.2.2 (gp.2.2 SentinelsValid_init) T f hc
  have hslot : f.slot p' = some ⟨T, init T,
      some (Error.kErrorFailedPrecondition, kInvalidStateMessage)⟩ := by
    unfold Future.slot
    rw [ha]
    exact hs
  refine ⟨p, f, p', hp, hf, ?_, ?_, ?_⟩
  · simp [Future.is_completed, Future.status, hslot, ResultSlot.status]
  · simp [Future.error, hslot]
  · simp [Future.error_message, hslot, kInvalidStateMessage_eq]

/-- C5: in any process state the no-argument `FailedFuture<T>()` returns a
future `f`; if the static local was not initialised yet, this first call
adds exactly one slot to the shared registry, the one `f` names, completes
it and leaves every older slot alone; and after any further factory calls a
later `FailedFuture<T>()` returns the same `f` (same registry, same handle)
and leaves the whole process state, the shared registry included, as it
was. -/
theorem FailedFuture0_same_sentinel (T : Ty) (p : Process Ty) :
    ∃ f p₁, FailedFuture0 T p = Except.ok (f, p₁) ∧
      (p.future T = none →
        p₁.slots.length = p.slots.length + 1 ∧
        f.api = ApiRef.shared ∧ f.handle = ⟨p.slots.length⟩ ∧
        f.is_completed p₁ = true ∧
        ∀ i, i < p.slots.length → p₁.slots[i]? = p.slots[i]?) ∧
      ∀ cs : List (Call Ty), ∃ p₂, runCalls cs p₁ = Except.ok p₂ ∧
        FailedFuture0 T p₂ = Except.ok (f, p₂) := by
  obtain ⟨f, p₁, hf, hc, gf⟩ := FailedFuture0_grows T p
  refine ⟨f, p₁, hf, ?_, ?_⟩
  · intro hnone
    rw [FailedFuture0_fresh hnone] at hf
    cases hf
    refine ⟨by simp [Process.slots], rfl, rfl, ?_, ?_⟩
    · simp [Future.is_completed, Future.status, slot_appended, ResultSlot.status]
    · intro i hi
      exact gf.getElem? hi
  · intro cs
    obtain ⟨p₂, h₂, g₂⟩ := runCalls_grows cs p₁
    exact ⟨p₂, h₂, FailedFuture0_cached (g₂.2.1 T f hc)⟩

/-- C6, as amended: there is one cached invalid-state future per result
type. After any factory calls, a caller of `FailedFuture<T>()` and a later
caller of `FailedFuture<U>()` both get futures on the shared registry, and
the two futures name the same slot exactly when `T` and `U` are the same
result type. -/
theorem FailedFuture0_sentinel_per_type (cs cs' : List (Call Ty)) (T U : Ty) :
    ∃ p f p₁ p₂ g p₃, runCalls cs Process.init = Except.ok p ∧
      FailedFuture0 T p = Except.ok (f, p₁) ∧
      runCalls cs' p₁ = Except.ok p₂ ∧
      FailedFuture0 U p₂ = Except.ok (g, p₃) ∧
      f.api = ApiRef.shared ∧ g.api = ApiRef.shared ∧
      (f.handle = g.handle ↔ T = U) := by
  obtain ⟨p, hp, gp⟩ := runCalls_grows cs (Process.init : Process Ty)
  obtain ⟨f, p₁, hf, hcf, gf⟩ := FailedFuture0_grows T p
  obtain ⟨p₂, h₂, g₂⟩ := runCalls_grows cs' p₁
  obtain ⟨g, p₃, hg, hcg, gg⟩ := FailedFuture0_grows U p₂
  have hv : p₃.SentinelsValid :=
    gg.2.2 (g₂.2.2 (gf.2.2 (gp.2.2 SentinelsValid_init)))
  have hcf₃ : p₃.future T = some f := gg.2.1 T f (g₂.2.1 T f hcf)
  obtain ⟨haf, hsf⟩ := hv T f hcf₃
  obtain ⟨hag, hsg⟩ := hv U g hcg
  refine ⟨p, f, p₁, p₂, g, p₃, hp, hf, h₂, hg, haf, hag, ?_, ?_⟩
  · intro heq
    rw [heq, hsg] at hsf
    have := Option.some.inj hsf
    exact (congrArg ResultSlot.T this).symm
  · rintro rfl
    rw [hcf₃] at hcg
    exact congrArg Future.handle (Option.some.inj hcg)

end

/-- C6 fails as stated: in a fresh process `FailedFuture<int>()` followed by
`FailedFuture<void>()` returns two futures on the shared registry that name
different slots, 0 and 1: two sentinel slots have been allocated, each
completed with the invalid-state failure. -/
theorem FailedFuture0_two_types_two_slots :
    ∃ f p₁ g p₂,
      FailedFuture0 CppType.int Process.init = Except.ok (f, p₁) ∧
      FailedFuture0 CppType.void p₁ = Except.ok (g, p₂) ∧
      f.api = ApiRef.shared ∧ g.api = ApiRef.shared ∧
      f.handle = ⟨0⟩ ∧ g.handle = ⟨1⟩ ∧ f.handle ≠ g.handle ∧
      p₂.slots.length = 2 ∧
      f.error p₂ = some Error.kErrorFailedPrecondition ∧
      g.error p₂ = some Error.kErrorFailedPrecondition :=
  ⟨_, _, _, _, rfl, rfl, rfl, rfl, rfl, rfl, by decide, rfl, rfl, rfl⟩

/-- C5 at `FailedFuture<void>()` in a fresh process, where the static local
is not initialised. -/
theorem FailedFuture0_same_sentinel_witness :
    (Process.init : Process CppType).future CppType.void = none ∧
    ∃ f p₁, FailedFuture0 CppType.void Process.init = Except.ok (f, p₁) ∧
      (p₁.slots.length = (Process.init : Process CppType).slots.length + 1 ∧
        f.api = ApiRef.shared ∧
        f.handle = ⟨(Process.init : Process CppType).slots.length⟩ ∧
        f.is_completed p₁ = true ∧
        ∀ i, i < (Process.init : Process CppType).slots.length →
          p₁.slots[i]? = (Process.init : Process CppType).slots[i]?) ∧
      ∀ cs : List (Call CppType), ∃ p₂, runCalls cs p₁ = Except.ok p₂ ∧
        FailedFuture0 CppType.void p₂ = Except.ok (f, p₂) :=
  ⟨rfl,
    match FailedFuture0_same_sentinel CppType.void Process.init with
    | ⟨f, p₁, h, hfirst, hlater⟩ => ⟨f, p₁, h, hfirst rfl, hlater⟩⟩

/-! ## Exactly-once completion and the frame of a factory call -/

section
variable {Ty : Type} [ResultTypes Ty] [DecidableEq Ty]

/-- C9: let `handle` and `api₁` be what `SafeAlloc<T>()` returns on the shared
registry. The slot `handle` names in `api₁` is Pending. `SuccessfulFuture`
and `FailedFuture(error, message)` are each exactly one completion of that
slot in `api₁`, which succeeds, and the returned future names `handle` on the
shared registry; the slot is Completed afterwards, so that any further
completion of it would be the double-completion misuse. The no-argument
`FailedFuture()` is that same `FailedFuture(error, message)` call when its
static local is not initialised and no registry call at all when it is.
None of the three factories, and no sequence of calls of them, ends in a
misuse error. -/
theorem factories_complete_fresh_slot_once (T : Ty) (v : Val T) (e : Error) (m : String)
    (p : Process Ty) (handle : SafeFutureHandle T) (api₁ : ReferenceCountedFutureImpl Ty)
    (halloc : (GetSharedReferenceCountedFutureImpl p).1.SafeAlloc T = (handle, api₁)) :
    handle.get.id = p.slots.length ∧
    (api₁.slots[handle.get.id]?).map ResultSlot.status = some FutureStatus.Pending ∧
    (∃ api₂, api₁.CompleteWithCallback handle Error.kErrorOk "" (fun _ => v) = Except.ok api₂ ∧
      SuccessfulFuture T v p = Except.ok (⟨ApiRef.shared, handle.get⟩, ⟨some api₂, p.future⟩) ∧
      (api₂.slots[handle.get.id]?).map ResultSlot.status = some FutureStatus.Completed ∧
      ∀ e' m' fn, api₂.CompleteWithCallback handle e' m' fn
        = Except.error Misuse.doubleCompletion) ∧
    (∃ api₂, api₁.Complete handle e m = Except.ok api₂ ∧
      FailedFuture T e m p = Except.ok (⟨ApiRef.shared, handle.get⟩, ⟨some api₂, p.future⟩) ∧
      (api₂.slots[handle.get.id]?).map ResultSlot.status = some FutureStatus.Completed ∧
      ∀ e' m' fn, api₂.CompleteWithCallback handle e' m' fn
        = Except.error Misuse.doubleCompletion) ∧
    (∃ f p', FailedFuture0 T p = Except.ok (f, p') ∧
      (p.future T = none → ∃ p₁,
        FailedFuture T Error.kErrorFailedPrecondition kInvalidStateMessage p = Except.ok (f, p₁) ∧
        p'.shared = p₁.shared) ∧
      (∀ f₀, p.future T = some f₀ → f = f₀ ∧ p' = p)) ∧
    (∀ cs : List (Call Ty), ∃ p', runCalls cs p = Except.ok p') := by
  have h1 : handle = ⟨⟨p.slots.length⟩⟩ := by
    rw [← slots_GetShared]
    exact (congrArg Prod.fst halloc).symm
  have h2 : api₁ = ⟨p.slots ++ [⟨T, init T, none⟩]⟩ := by
    rw [← slots_GetShared]
    exact (congrArg Prod.snd halloc).symm
  subst h1 h2
  refine ⟨rfl, by simp [ResultSlot.status], ?_, ?_, ?_, ?_⟩
  · refine ⟨⟨p.slots ++ [⟨T, v, some (Error.kErrorOk, "")⟩]⟩, ?_, SuccessfulFuture_eq T v p, ?_, ?_⟩
    · simp [ReferenceCountedFutureImpl.CompleteWithCallback]
    · simp [ResultSlot.status]
    · intro e' m' fn
      simp [ReferenceCountedFutureImpl.CompleteWithCallback]
  · refine ⟨⟨p.slots ++ [⟨T, init T, some (e, m)⟩]⟩, ?_, FailedFuture_eq T e m p, ?_, ?_⟩
    · simp [ReferenceCountedFutureImpl.Complete, ReferenceCountedFutureImpl.CompleteWithCallback]
    · simp [ResultSlot.status]
    · intro e' m' fn
      simp [ReferenceCountedFutureImpl.CompleteWithCallback]
  · cases h : p.future T with
    | some f₀ =>
      refine ⟨f₀, p, FailedFuture0_cached h, fun hn => Option.noConfusion hn, ?_⟩
      intro f₁ hf₁
      exact ⟨Option.some.inj hf₁, rfl⟩
    | none =>
      exact ⟨_, _, FailedFuture0_fresh h, fun _ => ⟨_, FailedFuture_eq _ _ _ p, rfl⟩,
        fun f₀ hf₀ => Option.noConfusion hf₀⟩
  · intro cs
    obtain ⟨p', h, -⟩ := runCalls_grows cs p
    exact ⟨p', h⟩

/-- C10: `SuccessfulFuture(v)` and `FailedFuture<T>(e, m)` each add exactly
one slot to the shared registry; the returned handle is the index of the new
slot and so differs from every handle allocated before; every older slot,
and with it what any future observes of it, is unchanged. Consequently,
after any later sequence of factory calls every handle allocated before,
the future just returned and the cached sentinel of any process that has
only run factory calls still show the observations they showed. -/
theorem factories_add_one_slot (T : Ty) (v : Val T) (e : Error) (m : String) (p : Process Ty) :
    (∃ f p', SuccessfulFuture T v p = Except.ok (f, p') ∧
      p'.slots.length = p.slots.length + 1 ∧ f.handle = ⟨p.slots.length⟩ ∧
      (∀ i, i < p.slots.length → f.handle ≠ ⟨i⟩ ∧ p'.slots[i]? = p.slots[i]?) ∧
      (∀ (U : Ty) (g : Future U), g.handle.id < p.slots.length → g.SameObservations p p') ∧
      ∀ cs : List (Call Ty), ∃ p'', runCalls cs p' = Except.ok p'' ∧
        f.SameObservations p' p'') ∧
    (∃ f p', FailedFuture T e m p = Except.ok (f, p') ∧
      p'.slots.length = p.slots.length + 1 ∧ f.handle = ⟨p.slots.length⟩ ∧
      (∀ i, i < p.slots.length → f.handle ≠ ⟨i⟩ ∧ p'.slots[i]? = p.slots[i]?) ∧
      (∀ (U : Ty) (g : Future U), g.handle.id < p.slots.length → g.SameObservations p p') ∧
      ∀ cs : List (Call Ty), ∃ p'', runCalls cs p' = Except.ok p'' ∧
        f.SameObservations p' p'') ∧
    (∀ cs : List (Call Ty), ∃ p', runCalls cs p = Except.ok p' ∧
      (∀ i, i < p.slots.length → p'.slots[i]? = p.slots[i]?) ∧
      ∀ (U : Ty) (g : Future U), g.handle.id < p.slots.length → g.SameObservations p p') ∧
    (∀ (cs₀ cs : List (Call Ty)) (U : Ty), ∃ q g q₁ q₂,
      runCalls cs₀ Process.init = Except.ok q ∧
      FailedFuture0 U q = Except.ok (g, q₁) ∧
      runCalls cs q₁ = Except.ok q₂ ∧ g.SameObservations q₁ q₂) := by
  have key : ∀ (f : Future T) (s : ResultSlot Ty), f.handle = ⟨p.slots.length⟩ →
      (⟨some ⟨p.slots ++ [s]⟩, p.future⟩ : Process Ty).slots.length = p.slots.length + 1 ∧
      f.handle = ⟨p.slots.length⟩ ∧
      (∀ i, i < p.slots.length → f.handle ≠ ⟨i⟩ ∧
        (⟨some ⟨p.slots ++ [s]⟩, p.future⟩ : Process Ty).slots[i]? = p.slots[i]?) ∧
      (∀ (U : Ty) (g : Future U), g.handle.id < p.slots.length →
        g.SameObservations p ⟨some ⟨p.slots ++ [s]⟩, p.future⟩) ∧
      ∀ cs : List (Call Ty), ∃ p'',
        runCalls cs ⟨some ⟨p.slots ++ [s]⟩, p.future⟩ = Except.ok p'' ∧
        f.SameObservations ⟨some ⟨p.slots ++ [s]⟩, p.future⟩ p'' := by
    intro f s hf
    have hg := Process.Grows.append p s
    refine ⟨by simp [Process.slots], hf, ?_, ?_, ?_⟩
    · intro i hi
      refine ⟨?_, hg.getElem? hi⟩
      rw [hf]
      intro hcon
      exact Nat.ne_of_gt hi (congrArg FutureHandle.id hcon)
    · intro U g hi
      exact SameObservations_of_slot_eq g (hg.slot_eq g hi)
    · intro cs
      obtain ⟨p'', h, g''⟩ := runCalls_grows cs (⟨some ⟨p.slots ++ [s]⟩, p.future⟩ : Process Ty)
      refine ⟨p'', h, SameObservations_of_slot_eq f (g''.slot_eq f ?_)⟩
      rw [hf]
      simp [Process.slots]
  refine ⟨⟨_, _, SuccessfulFuture_eq T v p, key _ _ rfl⟩,
    ⟨_, _, FailedFuture_eq T e m p, key _ _ rfl⟩, ?_, ?_⟩
  · intro cs
    obtain ⟨p', h, g⟩ := runCalls_grows cs p
    exact ⟨p', h, fun i hi => g.getElem? hi,
      fun U f hi => SameObservations_of_slot_eq f (g.slot_eq f hi)⟩
  · intro cs₀ cs U
    obtain ⟨q, hq, gq⟩ := runCalls_grows cs₀ (Process.init : Process Ty)
    obtain ⟨g, q₁, hg, hc, gg⟩ := FailedFuture0_grows U q
    obtain ⟨q₂, h₂, g₂⟩ := runCalls_grows cs q₁
    obtain ⟨-, hs⟩ := gg.2.2 (gq.2.2 SentinelsValid_init) U g hc
    have hi : g.handle.id < q₁.slots.length := by
      by_contra hcon
      rw [List.getElem?_eq_none (Nat.le_of_not_lt hcon)] at hs
      exact Option.noConfusion hs
    exact ⟨q, g, q₁, q₂, hq, hg, h₂, SameObservations_of_slot_eq g (g₂.slot_eq g hi)⟩

end

/-- C9 at `SuccessfulFuture<int>(42)` and `FailedFuture<int>(domain 3, "boom")`
in a fresh process, where `SafeAlloc<int>()` returns the handle 0 and the
registry with the one Pending slot. -/
theorem factories_complete_fresh_slot_once_witness :
    (GetSharedReferenceCountedFutureImpl (Process.init : Process CppType)).1.SafeAlloc
        CppType.int = (⟨⟨0⟩⟩, ⟨[⟨CppType.int, (0 : Int), none⟩]⟩) ∧
    (∃ api₂, SuccessfulFuture CppType.int (42 : Int) Process.init
        = Except.ok (⟨ApiRef.shared, ⟨0⟩⟩, ⟨some api₂, fun _ => none⟩) ∧
      (api₂.slots[0]?).map ResultSlot.status = some FutureStatus.Completed) ∧
    (∃ api₂, FailedFuture CppType.int (Error.domain 3) "boom" Process.init
        = Except.ok (⟨ApiRef.shared, ⟨0⟩⟩, ⟨some api₂, fun _ => none⟩) ∧
      (api₂.slots[0]?).map ResultSlot.status = some FutureStatus.Completed) :=
  ⟨rfl,
    match factories_complete_fresh_slot_once CppType.int (42 : Int) (Error.domain 3) "boom"
      Process.init ⟨⟨0⟩⟩ ⟨[⟨CppType.int, (0 : Int), none⟩]⟩ rfl with
    | ⟨_, _, ⟨a, _, hs, hc, _⟩, ⟨b, _, hf, hd, _⟩, _, _⟩ => ⟨⟨a, hs, hc⟩, ⟨b, hf, hd⟩⟩⟩

/-- C10 at `FailedFuture<void>(domain 3, "boom")` in a process whose shared
registry already holds slot 0, completed by `SuccessfulFuture<int>(7)`: the
call adds slot 1 and slot 0 is as it was. -/
theorem factories_add_one_slot_witness :
    0 < (⟨some ⟨[⟨CppType.int, (7 : Int), some (Error.kErrorOk, "")⟩]⟩, fun _ => none⟩ :
      Process CppType).slots.length ∧
    ∃ f p', FailedFuture CppType.void (Error.domain 3) "boom"
        ⟨some ⟨[⟨CppType.int, (7 : Int), some (Error.kErrorOk, "")⟩]⟩, fun _ => none⟩
        = Except.ok (f, p') ∧
      p'.slots.length = 2 ∧ f.handle = ⟨1⟩ ∧ f.handle ≠ ⟨0⟩ ∧
      p'.slots[0]? = some ⟨CppType.int, (7 : Int), some (Error.kErrorOk, "")⟩ :=
  ⟨by decide,
    match (factories_add_one_slot CppType.void () (Error.domain 3) "boom"
      ⟨some ⟨[⟨CppType.int, (7 : Int), some (Error.kErrorOk, "")⟩]⟩, fun _ => none⟩).2.1 with
    | ⟨f, p', h, hl, hh, hframe, _, _⟩ =>
      ⟨f, p', h, hl, hh, (hframe 0 (by decide)).1, (hframe 0 (by decide)).2⟩⟩

end firebase.firestore
